import Mathlib

/-!
Verification of the fritzbox_exporter core (UPnP/SOAP metric exporter).

This development shallowly embeds the pure logic of the exporter:

* package `upnp` (src/unnamed/part_003): metric resolution (`Exporter.request`),
  per-poll caching (`Exporter.getActionResult`, `Exporter.Collect`), SOAP
  response parsing (`Action.parseSoapResponse`), value coercion
  (`convertResult`), digest authentication (`Exporter.getDigestAuthHeader`);
* package `collector` (src/unnamed/part_001): result extraction
  (`getResultValue`), label resolution (`getLabelValues`), label renaming
  (`renameLabel`), gateway injection (`Collector.addGatewayGeneric`).

External I/O (the HTTP transport, `Exporter.call`'s network round trip, the
MD5 primitive, the compiled regexp engine) is modelled by explicit function
parameters; every data transformation performed by the Go source itself is
embedded as an executable Lean definition.

Go `map[string]T` values are modelled as association lists with last-write-wins
lookup; a `nil` map is modelled as `Option.none` where the source distinguishes
`nil` from an empty map.  Go machine integers are modelled as `Nat`/`Int` with
explicit range checks where the source checks ranges.
-/

namespace FBX

/-- A Go `interface{}` value as it occurs in the exporter's result records.
`f64` (Go `float64`) is modelled as a rational; the exporter only ever
injects integral values into it, and no modelled code path depends on
floating-point rounding. -/
inductive GoValue : Type where
  | str (s : String)
  | boolean (b : Bool)
  | u64 (n : Nat)
  | i64 (n : Int)
  | goInt (n : Int)
  | f64 (q : Rat)
  | null
deriving DecidableEq

/-- A Go `map[string]interface{}` result record (non-nil). -/
def ResultRecord : Type := List (String × GoValue)

instance : DecidableEq ResultRecord := by
  unfold ResultRecord; infer_instance

/-- Lookup in a Go map modelled as an association list: the last write wins,
matching repeated `m[k] = v` assignments on a Go map. -/
def goLookup {α : Type} (m : List (String × α)) (key : String) : Option α :=
  m.foldl (fun acc kv => if kv.1 = key then some kv.2 else acc) none

/-- A Go map store `m[k] = v`: appended, so that `goLookup` (last write wins)
returns the new value. -/
def goInsert {α : Type} (m : List (String × α)) (key : String) (v : α) :
    List (String × α) :=
  m ++ [(key, v)]

theorem goLookup_nil {α : Type} (key : String) :
    goLookup ([] : List (String × α)) key = none := rfl

theorem goLookup_append {α : Type} (m₁ m₂ : List (String × α)) (key : String) :
    goLookup (m₁ ++ m₂) key =
      (m₂.foldl (fun acc kv => if kv.1 = key then some kv.2 else acc)
        (goLookup m₁ key)) := by
  unfold goLookup
  exact List.foldl_append ..

theorem goLookup_insert {α : Type} (m : List (String × α)) (k key : String)
    (v : α) :
    goLookup (goInsert m k v) key =
      if k = key then some v else goLookup m key := by
  unfold goInsert
  rw [goLookup_append]
  simp [List.foldl]

/-! ### Decimal printing (Go `fmt.Sprintf("%v", ...)` for integers) -/

/-- The ASCII digit character for a digit value below ten. -/
def digitChar (d : Nat) : Char := Char.ofNat (48 + d)

/-- Fuel-bounded digit expansion (structurally recursive so that concrete
instances reduce inside the kernel); adequate whenever `n < fuel`. -/
def natDigitsCore : Nat → Nat → List Char
  | 0, _ => []
  | fuel + 1, n =>
    if n < 10 then [digitChar n]
    else natDigitsCore fuel (n / 10) ++ [digitChar (n % 10)]

/-- The decimal digit characters of a natural number, most significant first. -/
def natDigits (n : Nat) : List Char := natDigitsCore (n + 1) n

theorem natDigitsCore_fuel_irrel :
    ∀ f1 f2 n : Nat, n < f1 → n < f2 →
      natDigitsCore f1 n = natDigitsCore f2 n := by
  intro f1
  induction f1 with
  | zero => intro f2 n h1 _; omega
  | succ f ih =>
    intro f2 n h1 h2
    cases f2 with
    | zero => omega
    | succ f2p =>
      show (if n < 10 then _ else _) = (if n < 10 then _ else _)
      by_cases hn : n < 10
      · rw [if_pos hn, if_pos hn]
      · rw [if_neg hn, if_neg hn]
        have hlt := Nat.div_lt_self (n := n) (by omega) (by omega : (1 : Nat) < 10)
        rw [ih f2p (n / 10) (by omega) (by omega)]

/-- The recursive specification of `natDigits`. -/
theorem natDigits_unfold (n : Nat) :
    natDigits n = if n < 10 then [digitChar n]
      else natDigits (n / 10) ++ [digitChar (n % 10)] := by
  have hstep : natDigits n =
      (if n < 10 then [digitChar n]
        else natDigitsCore n (n / 10) ++ [digitChar (n % 10)]) := rfl
  rw [hstep]
  by_cases hn : n < 10
  · rw [if_pos hn, if_pos hn]
  · rw [if_neg hn, if_neg hn]
    have hlt := Nat.div_lt_self (n := n) (by omega) (by omega : (1 : Nat) < 10)
    rw [natDigitsCore_fuel_irrel n (n / 10 + 1) (n / 10) (by omega) (by omega)]
    rfl

/-- Decimal representation of a natural number, as printed by Go's `%v` /
`%d` verbs for unsigned integers. -/
def natRepr (n : Nat) : String := String.mk (natDigits n)

/-- Decimal representation of an integer, as printed by Go's `%v` verb for
signed integers. -/
def intRepr (i : Int) : String :=
  if i < 0 then "-" ++ natRepr (-i).toNat else natRepr i.toNat

/-- Go `fmt.Sprintf("%v", v)` on the values the exporter actually formats
(strings, booleans, integers, `nil`).  Go's float formatting is not modelled
exactly (no modelled code path formats a float). -/
def goFormat : GoValue → String
  | .str s => s
  | .boolean b => if b then "true" else "false"
  | .u64 n => natRepr n
  | .i64 n => intRepr n
  | .goInt n => intRepr n
  | .f64 q => toString q
  | .null => "<nil>"

/-! ### Decimal parsing (Go `strconv`) -/

/-- Numeric value of an ASCII digit character. -/
def digitVal (c : Char) : Nat := c.toNat - 48

/-- Parse a non-empty all-digit character list as a natural number
(no sign, base ten) -- the digit-consuming core of Go's `strconv` parsers. -/
def parseDecDigits (cs : List Char) : Option Nat :=
  if cs.isEmpty then none
  else if cs.all (fun c => c.isDigit) then
    some (cs.foldl (fun acc c => acc * 10 + digitVal c) 0)
  else none

/-- Go `strconv.ParseUint(s, 10, 64)` as used by `convertResult`: no sign
permitted, values up to `2^64 - 1`; `none` models a non-nil error. -/
def goParseUint64 (s : String) : Option Nat :=
  match parseDecDigits s.data with
  | some n => if n < 2 ^ 64 then some n else none
  | none => none

/-- Strip one optional leading sign, as Go's `strconv.ParseInt` does;
returns (isNegative, remaining characters). -/
def splitSign (cs : List Char) : Bool × List Char :=
  match cs with
  | [] => (false, [])
  | c :: rest =>
    if c = '+' then (false, rest)
    else if c = '-' then (true, rest)
    else (false, cs)

/-- Go `strconv.ParseInt(s, 10, 64)` as used by `convertResult`: optional
sign, values in `[-2^63, 2^63 - 1]`; `none` models a non-nil error. -/
def goParseInt64 (s : String) : Option Int :=
  match splitSign s.data with
  | (neg, cs) =>
    match parseDecDigits cs with
    | none => none
    | some n =>
      let v : Int := if neg then -(n : Int) else (n : Int)
      if v < -(2 ^ 63) ∨ v > 2 ^ 63 - 1 then none else some v

/-- Go `strconv.Atoi` (= `ParseInt(s, 10, 0)` on a 64-bit platform) as used
by `Exporter.request`: returns the parsed value together with an `ok` flag
(`false` models a non-nil error).  On a range error Go returns the clamped
boundary value together with the error, which `request` then uses as the
loop count; the clamping is therefore modelled explicitly. -/
def goAtoi (s : String) : Int × Bool :=
  match splitSign s.data with
  | (neg, cs) =>
    match parseDecDigits cs with
    | none => (0, false)
    | some n =>
      let v : Int := if neg then -(n : Int) else (n : Int)
      if v > 2 ^ 63 - 1 then (2 ^ 63 - 1, false)
      else if v < -(2 ^ 63) then (-(2 ^ 63), false)
      else (v, true)

/-! ### Round-trip facts for decimal printing/parsing -/

theorem digitVal_digitChar {d : Nat} (h : d < 10) :
    digitVal (digitChar d) = d := by
  interval_cases d <;> decide

theorem isDigit_digitChar {d : Nat} (h : d < 10) :
    (digitChar d).isDigit = true := by
  interval_cases d <;> decide

theorem natDigits_ne_nil (n : Nat) : natDigits n ≠ [] := by
  rw [natDigits_unfold]
  split
  · simp
  · simp

theorem natDigits_all_digit (n : Nat) :
    ∀ c ∈ natDigits n, c.isDigit = true := by
  induction n using Nat.strong_induction_on with
  | _ n ih =>
    rw [natDigits_unfold]
    split
    · intro c hc
      simp only [List.mem_singleton] at hc
      subst hc
      exact isDigit_digitChar (by omega)
    · intro c hc
      rcases List.mem_append.mp hc with h1 | h2
      · exact ih (n / 10) (Nat.div_lt_self (by omega) (by omega)) c h1
      · simp only [List.mem_singleton] at h2
        subst h2
        exact isDigit_digitChar (Nat.mod_lt _ (by omega))

theorem foldl_natDigits (n : Nat) : ∀ a : Nat,
    (natDigits n).foldl (fun acc c => acc * 10 + digitVal c) a =
      a * 10 ^ (natDigits n).length + n := by
  induction n using Nat.strong_induction_on with
  | _ n ih =>
    intro a
    rw [natDigits_unfold]
    split
    · rename_i h
      simp [List.foldl, digitVal_digitChar h]
    · rename_i h
      rw [List.foldl_append, ih (n / 10) (Nat.div_lt_self (by omega) (by omega))]
      simp only [List.foldl, List.length_append, List.length_cons,
        List.length_nil, pow_succ]
      rw [digitVal_digitChar (Nat.mod_lt _ (by omega))]
      generalize (10 : Nat) ^ (natDigits (n / 10)).length = B
      have hdm : 10 * (n / 10) + n % 10 = n := Nat.div_add_mod n 10
      ring_nf
      omega

theorem parseDecDigits_natDigits (n : Nat) :
    parseDecDigits (natDigits n) = some n := by
  unfold parseDecDigits
  rw [if_neg, if_pos]
  · rw [foldl_natDigits n 0]
    simp
  · rw [List.all_eq_true]
    exact natDigits_all_digit n
  · simp [List.isEmpty_iff, natDigits_ne_nil n]

theorem natRepr_injective {m n : Nat} (h : natRepr m = natRepr n) : m = n := by
  have hd : natDigits m = natDigits n := congrArg String.data h
  have hp := parseDecDigits_natDigits m
  rw [hd, parseDecDigits_natDigits n] at hp
  exact ((Option.some.injEq _ _).mp hp).symm

theorem isDigit_ne_sign {c : Char} (h : c.isDigit = true) :
    c ≠ '+' ∧ c ≠ '-' := by
  constructor <;> intro heq <;> subst heq <;> simp at h

theorem splitSign_natDigits (n : Nat) :
    splitSign (natDigits n) = (false, natDigits n) := by
  rcases hcons : natDigits n with _ | ⟨c, cs⟩
  · exact absurd hcons (natDigits_ne_nil n)
  · have hdig : c.isDigit = true := by
      apply natDigits_all_digit n
      rw [hcons]; exact List.mem_cons_self _ _
    obtain ⟨h1, h2⟩ := isDigit_ne_sign hdig
    simp [splitSign, h1, h2]

theorem goAtoi_natRepr {n : Nat} (h : n < 2 ^ 63) :
    goAtoi (natRepr n) = ((n : Int), true) := by
  unfold goAtoi natRepr
  have hdata : (String.mk (natDigits n)).data = natDigits n := rfl
  rw [hdata]
  simp only [splitSign_natDigits, parseDecDigits_natDigits]
  rw [if_neg (by omega), if_neg (by omega)]
  simp

/-! ### Go string helpers used by the digest negotiator -/

/-- Go `strings.Split` on a single-character separator. -/
def splitChar (sep : Char) : List Char → List (List Char)
  | [] => [[]]
  | c :: rest =>
    if c = sep then [] :: splitChar sep rest
    else
      match splitChar sep rest with
      | g :: gs => (c :: g) :: gs
      | [] => [[c]]

/-- Go `strings.SplitN(s, "=", 2)`: split at the first equals sign; a piece
without one stays whole (and is then skipped by the caller's length test). -/
def splitEq2 (cs : List Char) : List (List Char) :=
  let pre := cs.takeWhile (fun c => c ≠ '=')
  let rest := cs.dropWhile (fun c => c ≠ '=')
  match rest with
  | [] => [cs]
  | _ :: tail => [pre, tail]

/-- Characters removed by `strings.Trim(s, "\" ")`. -/
def isTrimCut (c : Char) : Bool := c = '"' || c = ' '

/-- Go `strings.Trim(s, "\" ")`: strip leading and trailing quotes and
spaces. -/
def trimCut (s : String) : String :=
  String.mk (((s.data.dropWhile isTrimCut).reverse.dropWhile isTrimCut).reverse)

/-- Go `strings.HasPrefix(s, pre)`. -/
def listStartsWith : List Char → List Char → Bool
  | [], _ => true
  | _ :: _, [] => false
  | p :: ps, c :: cs => p = c && listStartsWith ps cs

def goStartsWith (s pre : String) : Bool := listStartsWith pre.data s.data

/-! ### Digest Auth Negotiator (`Exporter.getDigestAuthHeader`) -/

/-- The key/value map the challenge-parsing loop of
`Exporter.getDigestAuthHeader` builds from the text after `Digest `:
split on commas, split each piece at the first equals sign, skip pieces
without one, trim quotes/spaces from both sides, later keys overwrite. -/
def parseDigestParams (s : String) : List (String × String) :=
  (splitChar ',' s.data).foldl
    (fun d kv =>
      match splitEq2 kv with
      | [k, v] => goInsert d (trimCut (String.mk k)) (trimCut (String.mk v))
      | _ => d)
    []

/-- Read from the challenge parameter map; a missing key yields the empty
string, as a Go map read does. -/
def paramGet (d : List (String × String)) (key : String) : String :=
  match goLookup d key with
  | some v => v
  | none => ""

/-- The fields interpolated into the `Authorization: Digest ...` header. -/
structure DigestAuthHeader where
  username : String
  realm : String
  nonce : String
  uri : String
  cnonce : String
  nc : String
  qop : String
  response : String
  algorithm : String
deriving DecidableEq

/-- The final Sprintf of `Exporter.getDigestAuthHeader` assembling
`exporter.AuthHeader`. -/
def formatDigestAuthHeader (h : DigestAuthHeader) : String :=
  "Digest username=\"" ++ h.username ++ "\", realm=\"" ++ h.realm ++
    "\", nonce=\"" ++ h.nonce ++ "\", uri=\"" ++ h.uri ++
    "\", cnonce=\"" ++ h.cnonce ++ "\", nc=" ++ h.nc ++ ", qop=" ++ h.qop ++
    ", response=\"" ++ h.response ++ "\", algorithm=" ++ h.algorithm

/-- `Exporter.getDigestAuthHeader` (part_003 lines 508-552).

The MD5 primitive (`crypto/md5` plus `%x` hex encoding of the sum) and the
client nonce (8 random bytes, hex encoded) are external inputs, passed in as
`md5hex` and `cnonce`; `controlURL` is the `a.service.ControlURL` of the
action being authenticated.  The source's two negative guards
(`d["algorithm"] != "MD5"` after the empty check, `d["qop"] != "auth"`) are
written here with the branches flipped, which is propositionally the same
test.  `nc` is `fmt.Sprintf("%08x", nCounter)` with `nCounter = 1`, i.e. the
constant string `00000001`.  On success the Go function stores
`formatDigestAuthHeader` of the returned fields in `exporter.AuthHeader`. -/
def getDigestAuthHeader (md5hex : String → String) (cnonce : String)
    (controlURL : String) (wwwAuth username password : String) :
    Except String DigestAuthHeader :=
  if goStartsWith wwwAuth "Digest " then
    let d := parseDigestParams (String.mk (wwwAuth.data.drop 7))
    if paramGet d "algorithm" = "" ∨ paramGet d "algorithm" = "MD5" then
      let algorithm :=
        if paramGet d "algorithm" = "" then "MD5" else paramGet d "algorithm"
      if paramGet d "qop" = "auth" then
        let ha1 := md5hex (username ++ ":" ++ paramGet d "realm" ++ ":" ++ password)
        let ha2 := md5hex ("POST:" ++ controlURL)
        let nc := "00000001"
        let ds := ha1 ++ ":" ++ paramGet d "nonce" ++ ":" ++ nc ++ ":" ++
          cnonce ++ ":" ++ paramGet d "qop" ++ ":" ++ ha2
        .ok { username := username, realm := paramGet d "realm",
              nonce := paramGet d "nonce", uri := controlURL, cnonce := cnonce,
              nc := nc, qop := paramGet d "qop", response := md5hex ds,
              algorithm := algorithm }
      else
        .error ("digest qop not supported: " ++ paramGet d "qop" ++ " != auth")
    else
      .error ("digest algorithm not supported: " ++ paramGet d "algorithm" ++
        " != MD5")
  else
    .error ("WWW-Authentication header is not Digest: '" ++ wwwAuth ++ "'")

/-! ### Descriptor model and value coercion -/

structure StateVariable where
  name : String
  dataType : String
  defaultValue : String
deriving DecidableEq

/-- An action argument.  The Go struct carries `StateVariable *StateVariable`,
linked by name during discovery; per the discovery invariant the link is
non-nil for every argument the parser touches (an argument naming an unknown
state variable is a discovery-time defect, not handled), so the embedding
stores the state variable directly. -/
structure Argument where
  name : String
  direction : String
  relatedStateVariable : String
  stateVariable : StateVariable
deriving DecidableEq

structure Action where
  name : String
  arguments : List Argument
deriving DecidableEq

/-- Lookup in `action.ArgumentMap`: the map is built by inserting the
action's arguments in declaration order keyed by `Name`, so a lookup
returns the last argument carrying the requested name. -/
def argumentMapLookup (a : Action) (nm : String) : Option Argument :=
  a.arguments.foldl (fun acc arg => if arg.name = nm then some arg else acc) none

/-- `IsGetOnly` (part_003 lines 148-155): no `in` argument and at least one
argument. -/
def isGetOnly (a : Action) : Bool :=
  a.arguments.all (fun arg => arg.direction ≠ "in") && a.arguments.length > 0

/-- `convertResult` (part_003 lines 623-654).  The Go `switch` on the
data-type tag is written as the equivalent chain of equality tests in source
order.  The error text of a failed numeric parse abbreviates Go's `strconv`
error; no claim depends on its wording. -/
def convertResult (val : String) (arg : Argument) : Except String GoValue :=
  let dt := arg.stateVariable.dataType
  if dt = "string" then .ok (.str val)
  else if dt = "boolean" then .ok (.boolean (val == "1"))
  else if dt = "ui1" ∨ dt = "ui2" ∨ dt = "ui4" then
    match goParseUint64 val with
    | some n => .ok (.u64 n)
    | none => .error ("strconv.ParseUint: parsing " ++ val ++ ": invalid")
  else if dt = "i4" then
    match goParseInt64 val with
    | some n => .ok (.i64 n)
    | none => .error ("strconv.ParseInt: parsing " ++ val ++ ": invalid")
  else if dt = "dateTime" ∨ dt = "uuid" then .ok (.str val)
  else .error ("unknown datatype: " ++ dt ++ " (" ++ val ++ ")")

/-- The value-coercion table as worded in the spec (section 4.4), for the
refinement comparison of claim C7: `string` passthrough; `boolean` true iff
the literal `1`; `ui1`/`ui2`/`ui4` parsed as unsigned 64-bit; `i4` as signed
64-bit, a parse failure being a hard error; `dateTime`/`uuid` passthrough as
strings; any other tag an unknown-datatype error carrying the raw value. -/
def convertResultSpec (val : String) (dataType : String) :
    Except String GoValue :=
  if dataType = "string" ∨ dataType = "dateTime" ∨ dataType = "uuid" then
    .ok (.str val)
  else if dataType = "boolean" then .ok (.boolean (val == "1"))
  else if dataType = "ui1" ∨ dataType = "ui2" ∨ dataType = "ui4" then
    match goParseUint64 val with
    | some n => .ok (.u64 n)
    | none => .error ("strconv.ParseUint: parsing " ++ val ++ ": invalid")
  else if dataType = "i4" then
    match goParseInt64 val with
    | some n => .ok (.i64 n)
    | none => .error ("strconv.ParseInt: parsing " ++ val ++ ": invalid")
  else .error ("unknown datatype: " ++ dataType ++ " (" ++ val ++ ")")

/-! ### SOAP response parsing (`Action.parseSoapResponse`) -/

/-- One token of the streamed XML response, as handed out by Go's
`xml.Decoder.Token`; `other` covers the token kinds the parser never
inspects (comments, processing instructions, directives). -/
inductive XmlToken : Type where
  | startElement (localName : String)
  | endElement (localName : String)
  | charData (text : String)
  | other
deriving DecidableEq

/-- `Action.parseSoapResponse` (part_003 lines 579-621), over the decoder's
token stream.  The end of the list models `io.EOF` from `decoder.Token`
(returning the record built so far); an exhausted stream directly after a
matched start element is the `io.EOF` error (`"EOF"`) the source returns
from the inner `decoder.Token` call.  A matched start element followed by
neither character data nor an end element is the invalid-response error. -/
def parseSoapTokens (act : Action) :
    List XmlToken → ResultRecord → Except String ResultRecord
  | [], result => .ok result
  | .startElement nm :: rest, result =>
    match argumentMapLookup act nm with
    | none => parseSoapTokens act rest result
    | some arg =>
      match rest with
      | [] => .error "EOF"
      | t2 :: rest2 =>
        let val? : Except String String :=
          match t2 with
          | .endElement _ => .ok ""
          | .charData s => .ok s
          | _ => .error "invalid SOAP response"
        match val? with
        | .error e => .error e
        | .ok val =>
          match convertResult val arg with
          | .error e => .error e
          | .ok converted =>
            parseSoapTokens act rest2
              (goInsert result arg.stateVariable.name converted)
  | .endElement _ :: rest, result => parseSoapTokens act rest result
  | .charData _ :: rest, result => parseSoapTokens act rest result
  | .other :: rest, result => parseSoapTokens act rest result

/-- Parse a whole response body: the loop starts from an empty (but
non-nil) result record. -/
def parseSoapResponse (act : Action) (tokens : List XmlToken) :
    Except String ResultRecord :=
  parseSoapTokens act tokens []

/-- A token the response-parsing loop passes over without touching the
result record: anything that is not a start element whose local name is a
declared argument of the action. -/
def skippableToken (act : Action) : XmlToken → Bool
  | .startElement nm => (argumentMapLookup act nm).isNone
  | _ => true

theorem parseSoapTokens_skip (act : Action) (pre : List XmlToken)
    (h : pre.all (skippableToken act) = true) (rest : List XmlToken)
    (result : ResultRecord) :
    parseSoapTokens act (pre ++ rest) result = parseSoapTokens act rest result := by
  induction pre with
  | nil => rfl
  | cons t ts ih =>
    rw [List.all_cons, Bool.and_eq_true] at h
    obtain ⟨ht, hts⟩ := h
    cases t with
    | startElement nm =>
      have hnone : argumentMapLookup act nm = none := by
        simpa [skippableToken, Option.isNone_iff_eq_none] using ht
      simp only [List.cons_append, parseSoapTokens, hnone]
      exact ih hts
    | endElement nm => simp only [List.cons_append, parseSoapTokens]; exact ih hts
    | charData s => simp only [List.cons_append, parseSoapTokens]; exact ih hts
    | other => simp only [List.cons_append, parseSoapTokens]; exact ih hts

/-! ### Metric resolution engine and per-poll cache -/

/-- `upnp.ActionArgument`: name and `interface{}` value of the single SOAP
call argument. -/
structure ActionArgument where
  name : String
  value : GoValue
deriving DecidableEq

/-- `metric.ActionArgument` from the metric catalog.  The `metric` package's
declaration file is not under src/; the field set and field types are forced
by the uses in part_003 (`a.Name`, `a.IsIndex`, `a.ProviderAction`, and
`a.Value`, the latter used to index a `map[string]interface{}`, hence a
string) and match the spec's argument-spec interface
(name, isIndex, providerAction, value). -/
structure MetricActionArg where
  name : String
  isIndex : Bool
  providerAction : String
  value : String
deriving DecidableEq

/-- The slice of `metric.Metric` read by the resolution engine. -/
structure Metric where
  service : String
  action : String
  actionArgument : Option MetricActionArg
deriving DecidableEq

/-- A Service as the resolution engine sees it: its `Actions` map.  The flat
`exporter.Services` index maps `serviceType` to the Service. -/
structure Service where
  serviceType : String
  actions : List (String × Action)
deriving DecidableEq

abbrev ServiceIndex := List (String × Service)

abbrev Cache := List (String × ResultRecord)

/-- One invocation of `Exporter.call`: the resolved Action and the optional
argument.  `Exporter.call`'s network round trip itself is external I/O,
modelled by the `CallOracle` parameter threaded through the engine. -/
structure CallRec where
  action : Action
  arg : Option ActionArgument
deriving DecidableEq

abbrev CallOracle := Action → Option ActionArgument → Except String ResultRecord

/-- The per-poll cache key of `Exporter.getActionResult` (part_003 lines
402-408): `serviceType|actionName`, extended by `|argName|argValue` when an
argument is present (the value `%v`-formatted). -/
def cacheKey (serviceType actionName : String)
    (arg : Option ActionArgument) : String :=
  let key := serviceType ++ "|" ++ actionName
  match arg with
  | none => key
  | some a => key ++ "|" ++ a.name ++ "|" ++ goFormat a.value

/-- `Exporter.getActionResult` (part_003 lines 400-433): memoized action
invocation.  Returns the call result, the updated cache, and the list of
`Exporter.call` invocations issued (empty on a cache hit; a failed call is
not cached). -/
def getActionResult (callFn : CallOracle) (services : ServiceIndex)
    (cache : Cache) (serviceType actionName : String)
    (actionArg : Option ActionArgument) :
    Except String ResultRecord × Cache × List CallRec :=
  let key := cacheKey serviceType actionName actionArg
  match goLookup cache key with
  | some entry => (.ok entry, cache, [])
  | none =>
    match goLookup services serviceType with
    | none => (.error ("service " ++ serviceType ++ " not found"), cache, [])
    | some service =>
      match goLookup service.actions actionName with
      | none =>
        (.error ("action " ++ actionName ++ " not found in service " ++
          serviceType), cache, [])
      | some action =>
        match callFn action actionArg with
        | .error e => (.error e, cache, [⟨action, actionArg⟩])
        | .ok r => (.ok r, goInsert cache key r, [⟨action, actionArg⟩])

/-- The observable outcome of one `Exporter.request`: the metric's result
slice (with `nil` map entries as `none`), the cache afterwards, the
`Exporter.call` invocations issued, and how often `collectErrors.Inc()`
ran. -/
structure RequestOut where
  results : List (Option ResultRecord)
  cache : Cache
  calls : List CallRec
  errors : Nat
deriving DecidableEq

/-- The `for i := 0; i < count; i++` loop of `Exporter.request`'s indexed
branch (part_003 lines 377-386), over the explicit list of index values:
each index is wrapped as the action argument, resolved through the cache,
and its result appended -- also when the invocation failed, in which case
the appended record is Go's nil map (`none`) and the error counter is
incremented. -/
def indexLoop (callFn : CallOracle) (services : ServiceIndex)
    (serviceType actionName argName : String) :
    Cache → List Int →
      List (Option ResultRecord) × Cache × List CallRec × Nat
  | cache, [] => ([], cache, [], 0)
  | cache, i :: rest =>
    let (res, cache1, calls1) := getActionResult callFn services cache
      serviceType actionName (some ⟨argName, .goInt i⟩)
    let (results2, cache2, calls2, errs2) := indexLoop callFn services
      serviceType actionName argName cache1 rest
    match res with
    | .ok r => (some r :: results2, cache2, calls1 ++ calls2, errs2)
    | .error _ => (none :: results2, cache2, calls1 ++ calls2, 1 + errs2)

/-- `Exporter.request` (part_003 lines 343-398).  The function's Go error
result is constantly nil (single return site), so only the result slice
and the cache/call/error-counter effects are returned.

With an argument spec present, the spec's literal string value is the
starting value; when a provider action is named it is resolved through the
cache and its result field named by `Value` replaces the value (a provider
failure or a missing field is printed and counted, and leaves the value as
the nil read result of the Go map).  With `IsIndex` set, the value is
`%v`-formatted and `Atoi`-parsed into a count (a parse failure is counted,
the possibly-clamped count is used regardless), and the target action is
invoked once per index `0..count-1`.  With an argument spec whose `IsIndex`
is false, the source invokes nothing and appends no result.  Without an
argument spec, the target action is invoked once with a nil argument and
its result appended -- the nil record when the invocation failed. -/
def request (callFn : CallOracle) (services : ServiceIndex) (cache : Cache)
    (m : Metric) : RequestOut :=
  match m.actionArgument with
  | some a =>
    let (value, cache1, calls1, errs1) :
        GoValue × Cache × List CallRec × Nat :=
      if a.providerAction ≠ "" then
        let (pres, c1, l1) := getActionResult callFn services cache
          m.service a.providerAction none
        let provErrs : Nat := match pres with | .ok _ => 0 | .error _ => 1
        let lookedUp : Option GoValue :=
          match pres with
          | .ok r => goLookup r a.value
          | .error _ => none
        match lookedUp with
        | some v => (v, c1, l1, provErrs)
        | none => (.null, c1, l1, provErrs + 1)
      else (.str a.value, cache, [], 0)
    if a.isIndex then
      let sval := goFormat value
      let (count, ok) := goAtoi sval
      let atoiErrs : Nat := if ok then 0 else 1
      let (results2, cache2, calls2, errs2) :=
        indexLoop callFn services m.service m.action a.name cache1
          ((List.range count.toNat).map (Nat.cast : Nat → Int))
      { results := results2, cache := cache2, calls := calls1 ++ calls2,
        errors := errs1 + atoiErrs + errs2 }
    else
      { results := [], cache := cache1, calls := calls1, errors := errs1 }
  | none =>
    let (res, cache1, calls1) := getActionResult callFn services cache
      m.service m.action none
    match res with
    | .ok r =>
      { results := [some r], cache := cache1, calls := calls1, errors := 0 }
    | .error _ =>
      { results := [none], cache := cache1, calls := calls1, errors := 1 }

/-- The metric loop of `Exporter.Collect` (part_003 lines 264-275),
threading the per-poll cache.  Each metric's `MetricResult` is cleared and
then set to its `request` result; since `request` never returns a non-nil
error, the source loop's abort branch is unreachable and every metric is
processed. -/
def collectLoop (callFn : CallOracle) (services : ServiceIndex) :
    Cache → List Metric →
      List (List (Option ResultRecord)) × Cache × List CallRec × Nat
  | cache, [] => ([], cache, [], 0)
  | cache, m :: rest =>
    let r := request callFn services cache m
    let (rs, cache2, calls2, errs2) := collectLoop callFn services r.cache rest
    (r.results :: rs, cache2, r.calls ++ calls2, r.errors + errs2)

/-- The observable outcome of `Exporter.Collect`: per-metric `MetricResult`
slices in metric order, all `Exporter.call` invocations of the pass, and
the number of error-counter increments. -/
structure CollectOut where
  metricResults : List (List (Option ResultRecord))
  calls : List CallRec
  errors : Nat
deriving DecidableEq

/-- `Exporter.Collect` (part_003 lines 260-277): the per-poll cache is
created empty (`make(map[string]map[string]interface{})`) at the start of
every pass; there is no cross-pass reuse. -/
def Collect (callFn : CallOracle) (services : ServiceIndex)
    (metrics : List Metric) : CollectOut :=
  let (rs, _, calls, errs) := collectLoop callFn services [] metrics
  { metricResults := rs, calls := calls, errors := errs }

/-! ### Collector extraction pipeline (package `collector`) -/

/-- Result of running Go code that can panic. -/
inductive GoOutcome (α : Type) : Type where
  | ok (val : α)
  | panics
deriving DecidableEq

/-- `metricResult["gateway"] = collector.gateway` for one record: an
assignment into a nil Go map is a run-time panic. -/
def addGatewayRecord (gateway : String) :
    Option ResultRecord → GoOutcome ResultRecord
  | none => .panics
  | some r => .ok (goInsert r "gateway" (.str gateway))

def addGatewayList (gateway : String) :
    List (Option ResultRecord) → GoOutcome (List ResultRecord)
  | [] => .ok []
  | r :: rest =>
    match addGatewayRecord gateway r with
    | .panics => .panics
    | .ok r1 =>
      match addGatewayList gateway rest with
      | .panics => .panics
      | .ok rs => .ok (r1 :: rs)

/-- `Collector.addGatewayGeneric` (part_001 lines 172-179): write the
configured gateway host into every collected result record of every
metric. -/
def addGatewayGeneric (gateway : String) :
    List (List (Option ResultRecord)) → GoOutcome (List (List ResultRecord))
  | [] => .ok []
  | mrs :: rest =>
    match addGatewayList gateway mrs with
    | .panics => .panics
    | .ok rs1 =>
      match addGatewayGeneric gateway rest with
      | .panics => .panics
      | .ok rss => .ok (rs1 :: rss)

/-- `getResultValue` (part_001 lines 208-241).  The record may be the nil
map (`none`); reading any key from it yields Go's nil interface, which
falls into the type switch's default branch.  Go `float64` is modelled as
`Rat`, and `float64(n)` for `int`/`uint64` as the exact cast (rounding
above `2^53` is not modelled; no claim depends on it).  Note the type
switch has cases for `float64`, `int`, `uint64`, `bool` and `string` only:
an `int64` value falls into the default error branch.  The error text
abbreviates the`fmt.Errorf` format; no claim depends on its wording. -/
def getResultValue (key : String) (result : Option ResultRecord)
    (okValue : String) : Except String Rat :=
  let key := if key = "" then "result" else key
  let value : Option GoValue :=
    match result with
    | none => none
    | some r => goLookup r key
  match value with
  | some (.f64 f) => .ok f
  | some (.goInt n) => .ok (n : Rat)
  | some (.u64 n) => .ok (n : Rat)
  | some (.boolean b) => .ok (if b then 1 else 0)
  | some (.str s) => .ok (if s = okValue then 1 else 0)
  | _ => .error ("[getResultValue] " ++ key ++ " - unknown type")

/-- A compiled label-rename rule: `Pattern` is the compiled regular
expression's `MatchString` predicate (the regexp engine is external to the
embedding) and `RenameLabel` the literal replacement, as in
`metric.LabelRename` after `initLabelRenames` compiled it. -/
structure LabelRename where
  Pattern : String → Bool
  RenameLabel : String

/-- `renameLabel` (part_001 lines 277-284): every rule, in declaration
order, overwrites the running value whenever its pattern matches the
running value. -/
def renameLabel (labelValue : String) (labelRenames : List LabelRename) :
    String :=
  labelRenames.foldl
    (fun v r => if r.Pattern v then r.RenameLabel else v) labelValue

/-- `strings.ToLower` restricted to ASCII (Go's full Unicode lowering is
not modelled; the claims only exercise ASCII values). -/
def charToLower (c : Char) : Char :=
  if c.toNat ≥ 65 ∧ c.toNat ≤ 90 then Char.ofNat (c.toNat + 32) else c

def strToLower (s : String) : String := String.mk (s.data.map charToLower)

/-- Read a field from a possibly-nil result record (reading from a nil Go
map yields the nil interface). -/
def recordRead (result : Option ResultRecord) (key : String) :
    Option GoValue :=
  match result with
  | none => none
  | some r => goLookup r key

/-- Does the read value hold a Go string? -- the success condition of the
unchecked `.(string)` type assertion in `getLabelValues`. -/
def readsAsString (v : Option GoValue) : Bool :=
  match v with
  | some (.str _) => true
  | _ => false

/-- `getLabelValues` (part_001 lines 243-261).  The reserved `gateway`
label name is substituted with the configured gateway host; any other
label name is read from the record with the unchecked type assertion
`result[labelname].(string)`, which panics at run time when the field is
absent, nil, or not a string.  (The function's Go error return is
constantly nil -- it has no non-nil return site.)  Every label value is
piped through `renameLabel` and then lowercased. -/
def getLabelValues (labelNames : List String) (result : Option ResultRecord)
    (gateway : String) (labelRenames : List LabelRename) :
    GoOutcome (List String) :=
  match labelNames with
  | [] => .ok []
  | nm :: rest =>
    let raw? : GoOutcome String :=
      if nm = "gateway" then .ok gateway
      else
        match recordRead result nm with
        | some (.str s) => .ok s
        | _ => .panics
    match raw? with
    | .panics => .panics
    | .ok raw =>
      let v := strToLower (renameLabel raw labelRenames)
      match getLabelValues rest result gateway labelRenames with
      | .panics => .panics
      | .ok vs => .ok (v :: vs)

/-- The label-name lowering of `initDescAndType` (part_001 lines 185-188):
the prometheus descriptor is built with every variable label name
lowercased. -/
def initDescVarLabels (varLabels : List String) : List String :=
  varLabels.map strToLower

/-! ### Claim C7: value coercion -/

/-- C7 (confirmed): for every raw string value and every state-variable
data type, `convertResult` realizes exactly the coercion table of the spec:
`string`/`dateTime`/`uuid` passthrough, `boolean` true iff the literal `1`,
`ui1`/`ui2`/`ui4` as unsigned 64-bit and `i4` as signed 64-bit with parse
failures as hard errors, and an unknown-datatype error carrying the raw
value for every other tag. -/
theorem convertResult_matches_spec (val : String) (arg : Argument) :
    convertResult val arg = convertResultSpec val arg.stateVariable.dataType := by
  obtain ⟨anm, adir, arsv, svn, dtv, dfl⟩ := arg
  show convertResult val ⟨anm, adir, arsv, ⟨svn, dtv, dfl⟩⟩ =
    convertResultSpec val dtv
  unfold convertResult convertResultSpec
  dsimp only
  by_cases h1 : dtv = "string"
  · subst h1; simp
  by_cases h2 : dtv = "boolean"
  · subst h2; simp
  by_cases h3 : dtv = "ui1"
  · subst h3; simp
  by_cases h4 : dtv = "ui2"
  · subst h4; simp
  by_cases h5 : dtv = "ui4"
  · subst h5; simp
  by_cases h6 : dtv = "i4"
  · subst h6; simp
  by_cases h7 : dtv = "dateTime"
  · subst h7; simp
  by_cases h8 : dtv = "uuid"
  · subst h8; simp
  simp [h1, h2, h3, h4, h5, h6, h7, h8]

/-! ### Claim C8: result-value extraction -/

/-- C8 counterexample: an `int64` result value -- numeric, and exactly what
the coercion layer produces for `i4` state variables -- does NOT pass
through `getResultValue`: the type switch only handles `float64`, `int` and
`uint64`, so `int64` falls into the default branch and is a hard error. -/
theorem getResultValue_i64_counterexample :
    getResultValue "" (some [("result", GoValue.i64 5)]) "" =
      .error ("[getResultValue] " ++ "result" ++ " - unknown type") := rfl

/-- C8 amended: the configured key (default `result` when empty) is read
from the record; values of runtime type `float64`, `int` and `uint64` pass
through, booleans map to 1/0, a string maps to 1 iff it equals the
configured ok-value and to 0 otherwise; any other value -- `int64` (the
coercion result of `i4` state variables) included, as well as nil and a
missing key -- is a hard extraction error. -/
theorem getResultValue_amended (k okValue s : String) (hk : ¬ k = "")
    (r : Option ResultRecord) (q : Rat) (i : Int) (n : Nat) :
    getResultValue k (some [(k, .f64 q)]) okValue = .ok q ∧
    getResultValue k (some [(k, .goInt i)]) okValue = .ok (i : Rat) ∧
    getResultValue k (some [(k, .u64 n)]) okValue = .ok (n : Rat) ∧
    getResultValue k (some [(k, .boolean true)]) okValue = .ok 1 ∧
    getResultValue k (some [(k, .boolean false)]) okValue = .ok 0 ∧
    getResultValue k (some [(k, .str s)]) okValue =
      .ok (if s = okValue then 1 else 0) ∧
    getResultValue k (some [(k, .i64 i)]) okValue =
      .error ("[getResultValue] " ++ k ++ " - unknown type") ∧
    getResultValue k (some [(k, .null)]) okValue =
      .error ("[getResultValue] " ++ k ++ " - unknown type") ∧
    getResultValue k (some []) okValue =
      .error ("[getResultValue] " ++ k ++ " - unknown type") ∧
    getResultValue k none okValue =
      .error ("[getResultValue] " ++ k ++ " - unknown type") ∧
    getResultValue "" r okValue = getResultValue "result" r okValue := by
  unfold getResultValue goLookup
  simp [hk, List.foldl]

/-- Witness for C8 amended at concrete inputs, among them the spec's
boolean-from-string example: value `ok` with ok-value `ok` yields 1, value
`fail` yields 0. -/
theorem getResultValue_amended_witness :
    getResultValue "x" (some [("x", .str "ok")]) "ok" = .ok 1 ∧
    getResultValue "x" (some [("x", .str "fail")]) "ok" = .ok 0 ∧
    getResultValue "x" (some [("x", .u64 3)]) "ok" = .ok 3 ∧
    getResultValue "x" (some [("x", .i64 3)]) "ok" =
      .error ("[getResultValue] " ++ "x" ++ " - unknown type") := by
  have h1 := getResultValue_amended "x" "ok" "ok" (by decide) none 0 0 3
  have h2 := getResultValue_amended "x" "ok" "fail" (by decide) none 0 3 3
  refine ⟨?_, ?_, ?_, ?_⟩
  · have := h1.2.2.2.2.2.1
    simpa using this
  · have := h2.2.2.2.2.2.1
    simpa using this
  · exact h1.2.2.1
  · exact h1.2.2.2.2.2.2.1

/-! ### Claim C9: label renaming -/

/-- The compiled `MatchString` of the pattern `^eth.*` under Go RE2
semantics: it matches exactly the strings starting with `eth` (`^` anchors
at the start of the text; `.*` matches any tail including the empty one). -/
def ethPattern : String → Bool := fun s => goStartsWith s "eth"

/-- A rename rule with match pattern `^eth.*` and replacement `wan`. -/
def ethWanRule : LabelRename := { Pattern := ethPattern, RenameLabel := "wan" }

/-- The claim's example rule: match `^eth.*`, replacement `lan`. -/
def ethLanRule : LabelRename := { Pattern := ethPattern, RenameLabel := "lan" }

/-- C9 counterexample: both rules' patterns match the original value
`eth0`, yet the final value is the FIRST rule's replacement `wan`, not the
last matching rule's `lan`: after a rule fires, later rules are matched
against the already-renamed value (`wan`), which `^eth.*` no longer
matches. -/
theorem renameLabel_overwrite_counterexample :
    ethWanRule.Pattern "eth0" = true ∧ ethLanRule.Pattern "eth0" = true ∧
    renameLabel "eth0" [ethWanRule, ethLanRule] = "wan" := ⟨rfl, rfl, rfl⟩

theorem renameLabel_no_match (v : String) (rs : List LabelRename)
    (h : ∀ r2 ∈ rs, r2.Pattern v = false) : renameLabel v rs = v := by
  induction rs with
  | nil => rfl
  | cons r rest ih =>
    unfold renameLabel
    simp only [List.foldl]
    rw [h r (List.mem_cons_self r rest)]
    simp only [Bool.false_eq_true, if_false]
    exact ih (fun r2 hr2 => h r2 (List.mem_cons_of_mem r hr2))

theorem renameLabel_append (v : String) (rs1 rs2 : List LabelRename) :
    renameLabel v (rs1 ++ rs2) = renameLabel (renameLabel v rs1) rs2 := by
  unfold renameLabel
  exact List.foldl_append ..

theorem renameLabel_cons (v : String) (r : LabelRename)
    (rs : List LabelRename) :
    renameLabel v (r :: rs) =
      renameLabel (if r.Pattern v then r.RenameLabel else v) rs := rfl

/-- C9 amended: rename rules are applied in declaration order with
unconditional overwrite, but each rule's pattern is matched against the
CURRENT (possibly already renamed) value, not the original one; the last
rule whose pattern matches the then-current value supplies the final value.
Afterwards the label value is lowercased before emission, and label names
are lowercased as well (in the descriptor built by `initDescAndType`). -/
theorem renameLabel_amended (v : String) (rs1 rs2 : List LabelRename)
    (r : LabelRename) (h1 : r.Pattern (renameLabel v rs1) = true)
    (h2 : ∀ r2 ∈ rs2, r2.Pattern r.RenameLabel = false)
    (nm gw : String) (hnm : ¬ nm = "gateway") :
    renameLabel v (rs1 ++ r :: rs2) = r.RenameLabel ∧
    getLabelValues [nm] (some [(nm, .str v)]) gw (rs1 ++ r :: rs2) =
      .ok [strToLower r.RenameLabel] ∧
    initDescVarLabels [nm] = [strToLower nm] := by
  have hmain : renameLabel v (rs1 ++ r :: rs2) = r.RenameLabel := by
    rw [renameLabel_append, renameLabel_cons, h1]
    rw [if_pos rfl]
    exact renameLabel_no_match r.RenameLabel rs2 h2
  refine ⟨hmain, ?_, rfl⟩
  unfold getLabelValues
  rw [if_neg hnm]
  simp [recordRead, goLookup, List.foldl, hmain, getLabelValues]

/-- Witness for C9 amended: the spec's own example, rule
{match `^eth.*`, replace `lan`} maps label value `eth0` to `lan`,
lowercased, and the label name is lowercased in the descriptor. -/
theorem renameLabel_amended_witness :
    renameLabel "eth0" [ethLanRule] = "lan" ∧
    getLabelValues ["Interface"] (some [("Interface", .str "eth0")]) "gw"
      [ethLanRule] = .ok ["lan"] ∧
    initDescVarLabels ["Interface"] = ["interface"] := by
  have h := renameLabel_amended "eth0" [] [] ethLanRule (by decide)
    (by intro r2 hr2; simp at hr2) "Interface" "gw" (by decide)
  exact h

/-! ### Claim C10: label resolution -/

/-- C10 counterexample: a label name whose field is absent from the record,
or present with a non-string value, makes `getLabelValues` PANIC (Go's
unchecked `.(string)` type assertion) -- a crash, not a hard error
surfaced to the caller. -/
theorem getLabelValues_panics_counterexample :
    getLabelValues ["foo"] (some []) "gw" [] = .panics ∧
    getLabelValues ["foo"] (some [("foo", GoValue.u64 1)]) "gw" [] = .panics ∧
    getLabelValues ["foo"] none "gw" [] = .panics := ⟨rfl, rfl, rfl⟩

/-- C10 amended: the reserved `gateway` label is substituted with the
configured gateway hostname (then renamed/lowercased like any value); any
other label name whose same-named field is absent from the record or is
not a string causes a RUN-TIME PANIC via the unchecked `.(string)` type
assertion -- the failure is a crash of the collection, not an error result
surfaced to the caller. -/
theorem getLabelValues_amended (gw : String) (result : Option ResultRecord)
    (renames : List LabelRename) (nm : String) (h1 : ¬ nm = "gateway")
    (h2 : readsAsString (recordRead result nm) = false) :
    getLabelValues ["gateway"] result gw renames =
      .ok [strToLower (renameLabel gw renames)] ∧
    getLabelValues [nm] result gw renames = .panics := by
  constructor
  · unfold getLabelValues
    simp [getLabelValues]
  · unfold getLabelValues
    rw [if_neg h1]
    rcases hr : recordRead result nm with _ | v
    · simp
    · cases v <;> simp_all [readsAsString]

/-- Witness for C10 amended: the gateway label resolves to the lowercased
configured host, and a label over a missing field panics. -/
theorem getLabelValues_amended_witness :
    getLabelValues ["gateway"] (some []) "MyGW" [] = .ok ["mygw"] ∧
    getLabelValues ["foo"] (some []) "MyGW" [] = .panics := by
  exact getLabelValues_amended "MyGW" (some []) [] "foo" (by decide) (by decide)

/-! ### Claim C2: literal argument resolution -/

/-- A demo action/service environment in which a call would succeed. -/
def litDemoAction : Action := { name := "GetX", arguments := [] }

def litDemoService : Service :=
  { serviceType := "Svc", actions := [("GetX", litDemoAction)] }

def litDemoServices : ServiceIndex := [("Svc", litDemoService)]

/-- An oracle under which every call succeeds. -/
def litDemoOracle : CallOracle := fun _ _ => .ok [("result", .u64 7)]

/-- C2 counterexample: a metric with an argument spec carrying a literal
value (`IsIndex` false, no provider action), against a service index where
the target action exists and the call would succeed, invokes NOTHING and
yields NO result record: only the `IsIndex` branch of `Exporter.request`
ever invokes the target action when an argument spec is present. -/
theorem request_literal_arg_counterexample :
    request litDemoOracle litDemoServices []
      { service := "Svc", action := "GetX",
        actionArgument := some
          { name := "NewX", isIndex := false, providerAction := "",
            value := "5" } } =
      { results := [], cache := [], calls := [], errors := 0 } := rfl

/-- C2 amended: for every metric whose argument spec has a literal value
(`IsIndex` false, no provider action), `Exporter.request` issues no
invocation at all and yields an empty result slice (leaving the cache and
the error counter untouched) -- the literal value is resolved but never
used. -/
theorem request_literal_arg_no_call (callFn : CallOracle)
    (services : ServiceIndex) (cache : Cache) (svc act nm v : String) :
    request callFn services cache
      { service := svc, action := act,
        actionArgument := some
          { name := nm, isIndex := false, providerAction := "",
            value := v } } =
      { results := [], cache := cache, calls := [], errors := 0 } := rfl

/-! ### Claim C5: digest response computation -/

/-- C5 (confirmed): for every challenge whose parsed parameters give realm
`R`, nonce `N`, qop `auth` and no (or MD5) algorithm, and fixed client
nonce `cnonce`, the negotiated header carries nonce-count `00000001` and
response `MD5(HA1:N:00000001:cnonce:auth:HA2)` with `HA1 = MD5(u:R:p)` and
`HA2 = MD5(POST:controlURL)`; `md5hex` abstracts the external MD5-and-hex
primitive, applied exactly where the source applies it. -/
theorem digest_response_correct (md5hex : String → String)
    (cnonce controlURL wwwAuth username password R N : String)
    (hpre : goStartsWith wwwAuth "Digest " = true)
    (hrealm :
      paramGet (parseDigestParams (String.mk (wwwAuth.data.drop 7))) "realm" = R)
    (hnonce :
      paramGet (parseDigestParams (String.mk (wwwAuth.data.drop 7))) "nonce" = N)
    (hqop :
      paramGet (parseDigestParams (String.mk (wwwAuth.data.drop 7))) "qop" =
        "auth")
    (halg :
      paramGet (parseDigestParams (String.mk (wwwAuth.data.drop 7)))
          "algorithm" = "" ∨
      paramGet (parseDigestParams (String.mk (wwwAuth.data.drop 7)))
          "algorithm" = "MD5") :
    getDigestAuthHeader md5hex cnonce controlURL wwwAuth username password =
      .ok { username := username, realm := R, nonce := N, uri := controlURL,
            cnonce := cnonce, nc := "00000001", qop := "auth",
            response := md5hex
              (md5hex (username ++ ":" ++ R ++ ":" ++ password) ++ ":" ++ N ++
                ":" ++ "00000001" ++ ":" ++ cnonce ++ ":" ++ "auth" ++ ":" ++
                md5hex ("POST:" ++ controlURL)),
            algorithm := "MD5" } := by
  rcases halg with h | h <;>
    simp [getDigestAuthHeader, hpre, hrealm, hnonce, hqop, h]

/-- A concrete digest challenge for the C5 witness. -/
def demoChallenge : String := "Digest realm=\"R\", nonce=\"N\", qop=auth"

/-- Witness for C5 at the spec's concrete example (realm `R`, nonce `N`,
user `u`, password `p`, control URL `/c`), with the identity function
standing in for the abstract MD5 parameter. -/
theorem digest_response_witness :
    getDigestAuthHeader (fun s => s) "0a1b2c3d" "/c" demoChallenge "u" "p" =
      .ok { username := "u", realm := "R", nonce := "N", uri := "/c",
            cnonce := "0a1b2c3d", nc := "00000001", qop := "auth",
            response := (fun s => s)
              ((fun s => s) ("u" ++ ":" ++ "R" ++ ":" ++ "p") ++ ":" ++ "N" ++
                ":" ++ "00000001" ++ ":" ++ "0a1b2c3d" ++ ":" ++ "auth" ++
                ":" ++ (fun s => s) ("POST:" ++ "/c")),
            algorithm := "MD5" } := by
  exact digest_response_correct (fun s => s) "0a1b2c3d" "/c" demoChallenge
    "u" "p" "R" "N" (by decide) (by decide) (by decide) (by decide)
    (Or.inl (by decide))

/-! ### Claim C6: SOAP response parsing round-trip -/

/-- C6 (confirmed): parsing a token stream in which a start element's local
name matches a declared argument of `ui4` type and is followed by numeric
character data stores the parsed unsigned value under the argument's
STATE-VARIABLE name, and every surrounding unrecognized token (non-matching
start elements, end elements, character data, other tokens) is skipped. -/
theorem parse_response_roundtrip (act : Action) (nm : String)
    (arg : Argument) (valText : String) (n : Nat) (pre post : List XmlToken)
    (harg : argumentMapLookup act nm = some arg)
    (hdt : arg.stateVariable.dataType = "ui4")
    (hval : goParseUint64 valText = some n)
    (hpre : pre.all (skippableToken act) = true)
    (hpost : post.all (skippableToken act) = true) :
    parseSoapResponse act
      (pre ++ XmlToken.startElement nm :: XmlToken.charData valText :: post) =
      .ok [(arg.stateVariable.name, GoValue.u64 n)] := by
  unfold parseSoapResponse
  rw [parseSoapTokens_skip act pre hpre]
  have hcv : convertResult valText arg = .ok (.u64 n) := by
    unfold convertResult
    rw [hdt]
    simp [hval]
  simp only [parseSoapTokens, harg, hcv]
  have hrest := parseSoapTokens_skip act post hpost []
    (goInsert [] arg.stateVariable.name (.u64 n))
  rw [List.append_nil] at hrest
  rw [hrest]
  rfl

/-- The state variable, output argument and action of the claim's example:
argument `NewFoo` of type `ui4`, related to state variable `Foo`. -/
def fooStateVar : StateVariable :=
  { name := "Foo", dataType := "ui4", defaultValue := "" }

def newFooArg : Argument :=
  { name := "NewFoo", direction := "out", relatedStateVariable := "Foo",
    stateVariable := fooStateVar }

def fooAction : Action := { name := "GetFoo", arguments := [newFooArg] }

/-- Witness for C6 at the claim's example: a response containing
`<NewFoo>42</NewFoo>` inside an otherwise unrecognized SOAP envelope yields
exactly the record mapping state-variable name `Foo` to `uint64 42`. -/
theorem parse_response_roundtrip_witness :
    parseSoapResponse fooAction
      [XmlToken.startElement "Envelope", XmlToken.startElement "Body",
       XmlToken.startElement "GetFooResponse", XmlToken.startElement "NewFoo",
       XmlToken.charData "42", XmlToken.endElement "NewFoo",
       XmlToken.endElement "GetFooResponse", XmlToken.endElement "Body",
       XmlToken.endElement "Envelope"] =
      .ok [("Foo", GoValue.u64 42)] := by
  exact parse_response_roundtrip fooAction "NewFoo" newFooArg "42" 42
    [XmlToken.startElement "Envelope", XmlToken.startElement "Body",
     XmlToken.startElement "GetFooResponse"]
    [XmlToken.endElement "NewFoo", XmlToken.endElement "GetFooResponse",
     XmlToken.endElement "Body", XmlToken.endElement "Envelope"]
    (by decide) (by decide) (by decide) (by decide) (by decide)

/-! ### Engine lemmas shared by claims C1, C3 and C4 -/

theorem goLookup_singleton {α : Type} (k key : String) (v : α) :
    goLookup [(k, v)] key = if k = key then some v else none := rfl

theorem getActionResult_hit (callFn : CallOracle) (services : ServiceIndex)
    (cache : Cache) (svcT actN : String) (arg : Option ActionArgument)
    (entry : ResultRecord)
    (hm : goLookup cache (cacheKey svcT actN arg) = some entry) :
    getActionResult callFn services cache svcT actN arg =
      (.ok entry, cache, []) := by
  unfold getActionResult
  simp only [hm]

theorem getActionResult_uncached_ok (callFn : CallOracle)
    (services : ServiceIndex) (cache : Cache) (svcT actN : String)
    (arg : Option ActionArgument) (sv : Service) (act : Action)
    (r : ResultRecord)
    (hm : goLookup cache (cacheKey svcT actN arg) = none)
    (hs : goLookup services svcT = some sv)
    (ha : goLookup sv.actions actN = some act)
    (hc : callFn act arg = .ok r) :
    getActionResult callFn services cache svcT actN arg =
      (.ok r, goInsert cache (cacheKey svcT actN arg) r, [⟨act, arg⟩]) := by
  unfold getActionResult
  simp only [hm, hs, ha, hc]

theorem getActionResult_no_service (callFn : CallOracle)
    (services : ServiceIndex) (cache : Cache) (svcT actN : String)
    (arg : Option ActionArgument)
    (hm : goLookup cache (cacheKey svcT actN arg) = none)
    (hs : goLookup services svcT = none) :
    getActionResult callFn services cache svcT actN arg =
      (.error ("service " ++ svcT ++ " not found"), cache, []) := by
  unfold getActionResult
  simp only [hm, hs]

theorem request_none_ok (callFn : CallOracle) (services : ServiceIndex)
    (cache : Cache) (svc act : String) (sv : Service) (actObj : Action)
    (r : ResultRecord)
    (hm : goLookup cache (cacheKey svc act none) = none)
    (hs : goLookup services svc = some sv)
    (ha : goLookup sv.actions act = some actObj)
    (hc : callFn actObj none = .ok r) :
    request callFn services cache
      { service := svc, action := act, actionArgument := none } =
      { results := [some r],
        cache := goInsert cache (cacheKey svc act none) r,
        calls := [⟨actObj, none⟩], errors := 0 } := by
  unfold request
  simp only [getActionResult_uncached_ok callFn services cache svc act none
    sv actObj r hm hs ha hc]

theorem request_none_hit (callFn : CallOracle) (services : ServiceIndex)
    (cache : Cache) (svc act : String) (entry : ResultRecord)
    (hm : goLookup cache (cacheKey svc act none) = some entry) :
    request callFn services cache
      { service := svc, action := act, actionArgument := none } =
      { results := [some entry], cache := cache, calls := [],
        errors := 0 } := by
  unfold request
  simp only [getActionResult_hit callFn services cache svc act none entry hm]

theorem request_none_service_missing (callFn : CallOracle)
    (services : ServiceIndex) (cache : Cache) (svc act : String)
    (hm : goLookup cache (cacheKey svc act none) = none)
    (hs : goLookup services svc = none) :
    request callFn services cache
      { service := svc, action := act, actionArgument := none } =
      { results := [none], cache := cache, calls := [], errors := 1 } := by
  unfold request
  simp only [getActionResult_no_service callFn services cache svc act none
    hm hs]

/-! ### Claim C4: per-poll cache memoization -/

/-- C4 (confirmed): two metrics referencing the same service type and
action name (no argument) within one pass issue exactly one underlying
`Exporter.call` and both receive the same result record; the cache key is
`service|action`, suffixed with `|argName|argValue` when an argument is
present; and every pass's collection loop starts from the empty cache
(no cross-pass reuse). -/
theorem collect_cache_dedup (callFn : CallOracle) (services : ServiceIndex)
    (svc actName : String) (sv : Service) (act : Action) (r : ResultRecord)
    (hs : goLookup services svc = some sv)
    (ha : goLookup sv.actions actName = some act)
    (hc : callFn act none = .ok r) :
    Collect callFn services
      [{ service := svc, action := actName, actionArgument := none },
       { service := svc, action := actName, actionArgument := none }] =
      { metricResults := [[some r], [some r]], calls := [⟨act, none⟩],
        errors := 0 } ∧
    cacheKey svc actName none = svc ++ "|" ++ actName ∧
    (∀ a : ActionArgument, cacheKey svc actName (some a) =
      svc ++ "|" ++ actName ++ "|" ++ a.name ++ "|" ++ goFormat a.value) ∧
    (∀ ms : List Metric, Collect callFn services ms =
      { metricResults := (collectLoop callFn services [] ms).1,
        calls := (collectLoop callFn services [] ms).2.2.1,
        errors := (collectLoop callFn services [] ms).2.2.2 }) := by
  refine ⟨?_, rfl, fun a => rfl, fun ms => rfl⟩
  have h1 := request_none_ok callFn services [] svc actName sv act r
    (goLookup_nil _) hs ha hc
  have hkey : goLookup (goInsert [] (cacheKey svc actName none) r)
      (cacheKey svc actName none) = some r := by
    rw [goLookup_insert]
    simp
  have h2 := request_none_hit callFn services
    (goInsert [] (cacheKey svc actName none) r) svc actName r hkey
  unfold Collect collectLoop collectLoop collectLoop
  simp only [h1, h2]
  simp

/-- Witness for C4 at a concrete service index and oracle. -/
theorem collect_cache_dedup_witness :
    Collect litDemoOracle litDemoServices
      [{ service := "Svc", action := "GetX", actionArgument := none },
       { service := "Svc", action := "GetX", actionArgument := none }] =
      { metricResults := [[some [("result", GoValue.u64 7)]],
                          [some [("result", GoValue.u64 7)]]],
        calls := [⟨litDemoAction, none⟩], errors := 0 } := by
  exact (collect_cache_dedup litDemoOracle litDemoServices "Svc" "GetX"
    litDemoService litDemoAction [("result", GoValue.u64 7)]
    (by decide) (by decide) rfl).1

/-! ### Claim C1: fault isolation at metric granularity -/

/-- C1 counterexample: a metric whose resolution fails (service not in the
index) still CONTRIBUTES a record to the pass's output -- Go's nil map,
appended by `Exporter.request` as a sentinel -- and the gateway-injection
step then panics on that nil record; so a failed metric is not simply
absent from the pass's output. -/
theorem collect_failure_emits_sentinel :
    Collect (fun _ _ => .ok [("result", GoValue.u64 7)]) []
      [{ service := "Svc", action := "GetX", actionArgument := none }] =
      { metricResults := [[none]], calls := [], errors := 1 } ∧
    addGatewayGeneric "gw" [[none]] = .panics := ⟨rfl, rfl⟩

/-- C1 amended: a resolution or invocation failure of one metric
increments the error counter and does not abort the resolution of the
remaining metrics of the pass; but the failed metric is not absent from
the pass's output: the no-argument (and per-index) invocation path appends
the nil record as a sentinel for the failure, and the subsequent
gateway-label injection (`Collector.addGatewayGeneric`) panics on that nil
record, crashing the pass before extraction. -/
theorem collect_partial_failure (callFn : CallOracle)
    (services : ServiceIndex) (svcBad actBad svcGood actGood : String)
    (sv : Service) (act : Action) (r : ResultRecord) (gw : String)
    (hbad : goLookup services svcBad = none)
    (hs : goLookup services svcGood = some sv)
    (ha : goLookup sv.actions actGood = some act)
    (hc : callFn act none = .ok r) :
    Collect callFn services
      [{ service := svcBad, action := actBad, actionArgument := none },
       { service := svcGood, action := actGood, actionArgument := none }] =
      { metricResults := [[none], [some r]], calls := [⟨act, none⟩],
        errors := 1 } ∧
    addGatewayGeneric gw [[none], [some r]] = .panics := by
  constructor
  · have h1 := request_none_service_missing callFn services [] svcBad actBad
      (goLookup_nil _) hbad
    have h2 := request_none_ok callFn services [] svcGood actGood sv act r
      (goLookup_nil _) hs ha hc
    unfold Collect collectLoop collectLoop collectLoop
    simp only [h1, h2]
    simp
  · rfl

/-- Witness for C1 amended at a concrete index/oracle: the first metric's
service is unknown, the second metric resolves normally. -/
theorem collect_partial_failure_witness :
    Collect litDemoOracle litDemoServices
      [{ service := "Nope", action := "GetY", actionArgument := none },
       { service := "Svc", action := "GetX", actionArgument := none }] =
      { metricResults := [[none], [some [("result", GoValue.u64 7)]]],
        calls := [⟨litDemoAction, none⟩], errors := 1 } ∧
    addGatewayGeneric "gw" [[none], [some [("result", GoValue.u64 7)]]] =
      .panics := by
  exact collect_partial_failure litDemoOracle litDemoServices "Nope" "GetY"
    "Svc" "GetX" litDemoService litDemoAction [("result", GoValue.u64 7)]
    "gw" (by decide) (by decide) (by decide) rfl

/-! ### Claim C3: indexed resolution -/

theorem strAppend_data (a b : String) : (a ++ b).data = a.data ++ b.data := rfl

theorem strAppend_left_cancel {a b c : String} (h : a ++ b = a ++ c) :
    b = c := by
  have hd : a.data ++ b.data = a.data ++ c.data := by
    have hx := congrArg String.data h
    simpa [strAppend_data] using hx
  have hbc := List.append_cancel_left hd
  cases b
  cases c
  exact congrArg String.mk hbc

theorem intRepr_natCast (k : Nat) : intRepr ((k : Nat) : Int) = natRepr k := by
  unfold intRepr
  rw [if_neg (not_lt.mpr (Int.natCast_nonneg k))]
  norm_num

theorem cacheKey_goInt_injective (svc tgt nm : String) {j k : Nat}
    (h : cacheKey svc tgt (some ⟨nm, .goInt ((j : Nat) : Int)⟩) =
         cacheKey svc tgt (some ⟨nm, .goInt ((k : Nat) : Int)⟩)) : j = k := by
  unfold cacheKey at h
  simp only [goFormat, intRepr_natCast] at h
  exact natRepr_injective (strAppend_left_cancel h)

/-- The fresh-index run of the target-invocation loop: over a duplicate-free
list of indices whose cache keys all miss, every index issues exactly one
call and appends exactly one (cached) record. -/
theorem indexLoop_fresh (callFn : CallOracle) (services : ServiceIndex)
    (svc tgt nm : String) (sv : Service) (tgtAct : Action)
    (f : Nat → ResultRecord)
    (hs : goLookup services svc = some sv)
    (hta : goLookup sv.actions tgt = some tgtAct) :
    ∀ (is : List Nat) (cache : Cache),
      (∀ k ∈ is, goLookup cache
        (cacheKey svc tgt (some ⟨nm, .goInt ((k : Nat) : Int)⟩)) = none) →
      is.Nodup →
      (∀ k ∈ is, callFn tgtAct (some ⟨nm, .goInt ((k : Nat) : Int)⟩) =
        .ok (f k)) →
      indexLoop callFn services svc tgt nm cache
          (is.map (Nat.cast : Nat → Int)) =
        (is.map (fun k => some (f k)),
         cache ++ is.map (fun k =>
           (cacheKey svc tgt (some ⟨nm, .goInt ((k : Nat) : Int)⟩), f k)),
         is.map (fun k =>
           (⟨tgtAct, some ⟨nm, .goInt ((k : Nat) : Int)⟩⟩ : CallRec)),
         0) := by
  intro is
  induction is with
  | nil =>
    intro cache _ _ _
    simp [indexLoop]
  | cons k rest ih =>
    intro cache hmiss hnodup hcall
    have hk := getActionResult_uncached_ok callFn services cache svc tgt
      (some ⟨nm, .goInt ((k : Nat) : Int)⟩) sv tgtAct (f k)
      (hmiss k (List.mem_cons_self k rest)) hs hta
      (hcall k (List.mem_cons_self k rest))
    have hknotrest : k ∉ rest := (List.nodup_cons.mp hnodup).1
    have hmiss2 : ∀ j ∈ rest, goLookup
        (goInsert cache (cacheKey svc tgt (some ⟨nm, .goInt ((k : Nat) : Int)⟩))
          (f k))
        (cacheKey svc tgt (some ⟨nm, .goInt ((j : Nat) : Int)⟩)) = none := by
      intro j hj
      rw [goLookup_insert]
      rw [if_neg, hmiss j (List.mem_cons_of_mem k hj)]
      intro he
      exact hknotrest
        ((cacheKey_goInt_injective svc tgt nm he) ▸ hj)
    have ihr := ih
      (goInsert cache (cacheKey svc tgt (some ⟨nm, .goInt ((k : Nat) : Int)⟩))
        (f k))
      hmiss2 (List.nodup_cons.mp hnodup).2
      (fun j hj => hcall j (List.mem_cons_of_mem k hj))
    simp only [List.map_cons, indexLoop, hk, ihr]
    simp [goInsert, List.append_assoc]

/-- C3 (confirmed): a metric with a provider action and `IsIndex` true,
whose provider result field holds the unsigned integer `N` (below the
64-bit signed bound that `Atoi` enforces), makes the engine invoke the
provider once and the target action exactly `N` times with argument values
`0, 1, ..., N-1`, each successful invocation contributing exactly one
result record, so the metric yields `N` records, with no error counted. -/
theorem request_indexed_resolution (callFn : CallOracle)
    (services : ServiceIndex) (svc tgt prov nm fld : String)
    (sv : Service) (provAct tgtAct : Action) (provRec : ResultRecord)
    (f : Nat → ResultRecord) (N : Nat)
    (hprovne : ¬ prov = "")
    (hN : N < 2 ^ 63)
    (hs : goLookup services svc = some sv)
    (hpa : goLookup sv.actions prov = some provAct)
    (hta : goLookup sv.actions tgt = some tgtAct)
    (hprov : callFn provAct none = .ok provRec)
    (hfld : goLookup provRec fld = some (.u64 N))
    (hcall : ∀ i : Nat, i < N →
      callFn tgtAct (some ⟨nm, .goInt ((i : Nat) : Int)⟩) = .ok (f i))
    (hkey : ∀ i : Nat, i < N →
      ¬ cacheKey svc tgt (some ⟨nm, .goInt ((i : Nat) : Int)⟩) =
        cacheKey svc prov none) :
    request callFn services []
      { service := svc, action := tgt,
        actionArgument := some
          { name := nm, isIndex := true, providerAction := prov,
            value := fld } } =
      { results := (List.range N).map (fun i => some (f i)),
        cache := goInsert [] (cacheKey svc prov none) provRec ++
          (List.range N).map (fun i =>
            (cacheKey svc tgt (some ⟨nm, .goInt ((i : Nat) : Int)⟩), f i)),
        calls := (⟨provAct, none⟩ : CallRec) ::
          (List.range N).map (fun i =>
            (⟨tgtAct, some ⟨nm, .goInt ((i : Nat) : Int)⟩⟩ : CallRec)),
        errors := 0 } := by
  have hprovcall := getActionResult_uncached_ok callFn services [] svc prov
    none sv provAct provRec (goLookup_nil _) hs hpa hprov
  have hmiss : ∀ k ∈ List.range N, goLookup
      (goInsert [] (cacheKey svc prov none) provRec)
      (cacheKey svc tgt (some ⟨nm, .goInt ((k : Nat) : Int)⟩)) = none := by
    intro k hk
    rw [goLookup_insert, if_neg, goLookup_nil]
    intro he
    exact hkey k (List.mem_range.mp hk) he.symm
  have hloop := indexLoop_fresh callFn services svc tgt nm sv tgtAct f hs hta
    (List.range N) (goInsert [] (cacheKey svc prov none) provRec) hmiss
    (List.nodup_range N) (fun j hj => hcall j (List.mem_range.mp hj))
  unfold request
  dsimp only
  rw [if_pos hprovne]
  simp only [hprovcall, hfld]
  dsimp only [goFormat]
  rw [goAtoi_natRepr hN]
  simp only [Int.toNat_natCast]
  rw [hloop]
  simp

/-- Provider and target actions for the C3 witness. -/
def idxProvAction : Action := { name := "GetEntryCount", arguments := [] }

def idxTgtAction : Action := { name := "GetEntry", arguments := [] }

def idxDemoService : Service :=
  { serviceType := "Svc",
    actions := [("GetEntryCount", idxProvAction), ("GetEntry", idxTgtAction)] }

def idxDemoServices : ServiceIndex := [("Svc", idxDemoService)]

/-- An oracle for the C3 witness: the provider reports `Count = 3`, the
target echoes its index argument. -/
def idxDemoOracle : CallOracle := fun act arg =>
  if act.name = "GetEntryCount" then .ok [("Count", .u64 3)]
  else
    match arg with
    | some a => .ok [("result", a.value)]
    | none => .ok []

/-- The echoed record of target invocation `i` in the C3 witness. -/
def idxEcho (i : Nat) : ResultRecord := [("result", .goInt ((i : Nat) : Int))]

/-- Witness for C3 at the spec's example: provider `GetEntryCount`, result
field `Count` = 3, `isIndex` true: the target is invoked exactly three
times with argument values 0, 1, 2, one record each. -/
theorem request_indexed_resolution_witness :
    request idxDemoOracle idxDemoServices []
      { service := "Svc", action := "GetEntry",
        actionArgument := some
          { name := "NewIndex", isIndex := true,
            providerAction := "GetEntryCount", value := "Count" } } =
      { results := (List.range 3).map (fun i => some (idxEcho i)),
        cache := goInsert ([] : Cache) (cacheKey "Svc" "GetEntryCount" none)
            [("Count", GoValue.u64 3)] ++
          (List.range 3).map (fun i =>
            (cacheKey "Svc" "GetEntry"
              (some ⟨"NewIndex", .goInt ((i : Nat) : Int)⟩), idxEcho i)),
        calls := (⟨idxProvAction, none⟩ : CallRec) ::
          (List.range 3).map (fun i =>
            (⟨idxTgtAction, some ⟨"NewIndex", .goInt ((i : Nat) : Int)⟩⟩ :
              CallRec)),
        errors := 0 } := by
  exact request_indexed_resolution idxDemoOracle idxDemoServices "Svc"
    "GetEntry" "GetEntryCount" "NewIndex" "Count" idxDemoService
    idxProvAction idxTgtAction [("Count", GoValue.u64 3)] idxEcho 3
    (by decide) (by norm_num) (by decide) (by decide) (by decide) rfl
    rfl (by intro i hi; interval_cases i <;> rfl) (by decide)

end FBX
